import Mathlib

/-!
A shallow embedding of the signup/rate-limit core of the CodeAssylum
"launching soon" Cloudflare worker (`src/index.js`), together with proofs of
the specification's claims about it.

Modelling conventions:
* JS strings are Lean `String` (a list of characters); the JS `\s` character
  class, `trim`, and the ASCII fragment of `toLowerCase` are embedded
  explicitly below.
* The KV store (`env.SIGNUPS`) is a map `String → Option JObj`, where `JObj`
  models the JSON objects this worker ever stores: rate buckets
  `(ts, count)` and signup records `(email, ts)`; every field is optional,
  mirroring JS property access, and `x || 0` on a possibly missing numeric
  field is `jnum`.
* Timestamps and counters are `Int` (JS number arithmetic at the scale used
  here is exact integer arithmetic).
* Each fallible external operation (KV get/put, webhook fetch) carries a
  fault flag in `Faults`; a `true` flag makes that operation fail, and the
  embedding of `handleSignup` reproduces exactly what the JS `catch`
  handlers do with the failure.
* The request body parsing (step before the email is extracted) is out of
  scope of the claims; `handleSignup` takes the already-extracted
  `data.email` field (`Option String`, `none` for a missing field, matching
  `data.email || ""`).
-/

/-- The JS `\s` character class, restricted to the characters relevant here:
ASCII whitespace, NBSP and the Unicode line/paragraph separators. -/
def jsWs (c : Char) : Bool :=
  c = ' ' || c = '\t' || c = '\n' || c = '\r' || c = '\x0b' || c = '\x0c' ||
  c = '\xa0' || c = ' ' || c = ' '

/-- The ASCII fragment of JS `String.prototype.toLowerCase`, character-wise
(non-ASCII letters do not occur in the claims). -/
def lowerChar (c : Char) : Char :=
  if c = 'A' then 'a'
  else if c = 'B' then 'b'
  else if c = 'C' then 'c'
  else if c = 'D' then 'd'
  else if c = 'E' then 'e'
  else if c = 'F' then 'f'
  else if c = 'G' then 'g'
  else if c = 'H' then 'h'
  else if c = 'I' then 'i'
  else if c = 'J' then 'j'
  else if c = 'K' then 'k'
  else if c = 'L' then 'l'
  else if c = 'M' then 'm'
  else if c = 'N' then 'n'
  else if c = 'O' then 'o'
  else if c = 'P' then 'p'
  else if c = 'Q' then 'q'
  else if c = 'R' then 'r'
  else if c = 'S' then 's'
  else if c = 'T' then 't'
  else if c = 'U' then 'u'
  else if c = 'V' then 'v'
  else if c = 'W' then 'w'
  else if c = 'X' then 'x'
  else if c = 'Y' then 'y'
  else if c = 'Z' then 'z'
  else c

/-- Leading-whitespace removal (the first half of JS `trim`). -/
def trimStart (l : List Char) : List Char := l.dropWhile jsWs

/-- Trailing-whitespace removal (the second half of JS `trim`). -/
def trimEnd : List Char → List Char
  | [] => []
  | a :: rest =>
    match trimEnd rest with
    | [] => if jsWs a then [] else [a]
    | b :: r => a :: b :: r

/-- JS `String.prototype.trim` on the character list. -/
def trimList (l : List Char) : List Char := trimEnd (trimStart l)

/-- JS `String.prototype.trim`. -/
def jsTrim (s : String) : String := String.mk (trimList s.data)

/-- JS `String.prototype.toLowerCase` (ASCII fragment). -/
def jsToLower (s : String) : String := String.mk (s.data.map lowerChar)

/-- The email normalization performed by `handleSignup`
(`(data.email || "").trim().toLowerCase()`, src/index.js line 59). -/
def normEmail (s : String) : String := jsToLower (jsTrim s)

/-- A character matched by `[^@\s]` in the email regex. -/
def atomChar (c : Char) : Bool := !(c = '@' || jsWs c)

/-- `true` iff the list contains a `'.'` that is not its last element
(helper for the `[^@\s]+\.[^@\s]+` tail of the regex). -/
def hasDotNotLast : List Char → Bool
  | [] => false
  | [_] => false
  | c :: d :: rest => c = '.' || hasDotNotLast (d :: rest)

/-- `true` iff the list matches `[^@\s]+\.[^@\s]+` positionally, given that
all its characters are already known to match `[^@\s]`: it must contain a
`'.'` preceded and followed by at least one character. -/
def tailDot : List Char → Bool
  | [] => false
  | _ :: rest => hasDotNotLast rest

/-- The regex test `/^[^@\s]+@[^@\s]+\.[^@\s]+$/.test(·)` from
src/index.js line 45, on the character list: the characters before the first
non-`[^@\s]` character form the local part, that character must be `'@'`,
and the remainder must be all `[^@\s]` and contain an interior `'.'`. -/
def regexTest (cs : List Char) : Bool :=
  match cs.dropWhile atomChar with
  | a :: d =>
    a = '@' && !(cs.takeWhile atomChar).isEmpty && d.all atomChar && tailDot d
  | [] => false

/-- `isValidEmail` from src/index.js line 45:
`typeof email === "string" && /^[^@\s]+@[^@\s]+\.[^@\s]+$/.test(email.trim())`.
`none` models any non-string (or missing) input. -/
def isValidEmail : Option String → Bool
  | none => false
  | some s => regexTest (jsTrim s).data

/-- A JSON object as stored by this worker: rate buckets `{ts, count}` and
signup records `{email, ts}`. Every field is optional, mirroring JS property
access on parsed JSON. -/
structure JObj where
  ts : Option Int
  count : Option Int
  email : Option String
deriving DecidableEq, Repr

/-- `x || 0` on a possibly-missing JSON numeric field. -/
def jnum (o : Option Int) : Int := o.getD 0

/-- The KV namespace `SIGNUPS`: a flat map from key to stored JSON value. -/
abbrev Store := String → Option JObj

/-- `env.SIGNUPS.put(k, JSON.stringify(v))` (the `expirationTtl` option is
store-side eviction and is not modelled). -/
def Store.put (s : Store) (k : String) (v : JObj) : Store :=
  fun k' => if k' = k then some v else s k'

/-- The store with no entries. -/
def emptyStore : Store := fun _ => none

/-- Fault flags for the fallible external operations of one request: a `true`
flag makes that KV get/put (or the webhook fetch) fail. -/
structure Faults where
  rateGet : Bool
  ratePut : Bool
  emailGet : Bool
  emailPut : Bool
  webhook : Bool

/-- No external operation fails. -/
def noFaults : Faults := ⟨false, false, false, false, false⟩

/-- The JSON response bodies `handleSignup` can produce. -/
inductive RBody
  | invalidEmail
  | rateLimited
  | alreadySignedUp
  | registered
  | serverError (detail : String)
deriving DecidableEq

/-- The `ok` field of the response body. -/
def okField : RBody → Bool
  | .invalidEmail => false
  | .rateLimited => false
  | .alreadySignedUp => true
  | .registered => true
  | .serverError _ => false

/-- `JSON.stringify` of the response body objects of src/index.js. -/
def renderBody : RBody → String
  | .invalidEmail => "\x7b\"ok\":false,\"error\":\"invalid_email\"\x7d"
  | .rateLimited => "\x7b\"ok\":false,\"error\":\"rate_limited\"\x7d"
  | .alreadySignedUp => "\x7b\"ok\":true,\"message\":\"already_signed_up\"\x7d"
  | .registered => "\x7b\"ok\":true\x7d"
  | .serverError d =>
    "\x7b\"ok\":false,\"error\":\"server_error\",\"detail\":\"" ++ d ++ "\"\x7d"

/-- An HTTP response of the signup endpoint. -/
structure Resp where
  status : Nat
  body : RBody
deriving DecidableEq

/-- The outcome of one `handleSignup` call: the HTTP response, the store
after the call, and whether the webhook forward was performed successfully. -/
structure HOut where
  resp : Resp
  store : Store
  webhookDelivered : Bool

/-- `windowMs = 60*60*1000` (src/index.js line 66). -/
def windowMs : Int := 60 * 60 * 1000

/-- `maxPerWindow = 10` (src/index.js line 67). -/
def maxPerWindow : Int := 10

/-- The rate-bucket key `` `rate:${ip}` `` (src/index.js line 64). -/
def rateKeyOf (ip : String) : String := "rate:" ++ ip

/-- The dedupe key `` `email:${email}` `` (src/index.js line 78). -/
def emailKeyOf (e : String) : String := "email:" ++ e

/-- The fresh rate bucket `{ ts: now, count: 0 }` (src/index.js lines 70-71). -/
def freshB (now : Int) : JObj := ⟨some now, some 0, none⟩

/-- The bucket the admission check actually uses (src/index.js lines 70-71):
a missing bucket, or one whose window has elapsed
(`now - (bucket.ts||0) > windowMs`), is replaced by a fresh one. -/
def effBucket (now : Int) (b : Option JObj) : JObj :=
  let b1 := b.getD (freshB now)
  if now - jnum b1.ts > windowMs then freshB now else b1

/-- `handleSignup` (src/index.js lines 48-95), after body parsing:
`dataEmail` is the extracted `data.email` field, `ip` the client identity
(`cf-connecting-ip` / `x-forwarded-for` / `"unknown"`), `now` is
`Date.now()`, `webhookConfigured` is `env.BREVO_WEBHOOK` being set, `f` the
fault flags of this request's external calls, and `store` the KV state. -/
def handleSignup (dataEmail : Option String) (ip : String) (now : Int)
    (webhookConfigured : Bool) (f : Faults) (store : Store) : HOut :=
  let email := normEmail (dataEmail.getD "")
  if isValidEmail (some email) then
    let rateKey := rateKeyOf ip
    let bucketRead : Option JObj := if f.rateGet then none else store rateKey
    let bucket := effBucket now bucketRead
    if jnum bucket.count ≥ maxPerWindow then
      ⟨⟨429, .rateLimited⟩, store, false⟩
    else
      let bucket' : JObj := ⟨bucket.ts, some (jnum bucket.count + 1), bucket.email⟩
      let store1 := if f.ratePut then store else store.put rateKey bucket'
      let emailKey := emailKeyOf email
      let existing : Option JObj := if f.emailGet then none else store1 emailKey
      match existing with
      | some _ => ⟨⟨200, .alreadySignedUp⟩, store1, false⟩
      | none =>
        let store2 :=
          if f.emailPut then store1
          else store1.put emailKey ⟨some now, none, some email⟩
        ⟨⟨200, .registered⟩, store2, webhookConfigured && !f.webhook⟩
  else ⟨⟨400, .invalidEmail⟩, store, false⟩

/-- The store after `n` sequential `handleSignup` calls with the same body
and identity, call `k` (0-based) happening at time `τ k`. -/
def runStoreT (de : Option String) (ip : String) (τ : Nat → Int) (wh : Bool)
    (f : Faults) (s : Store) : Nat → Store
  | 0 => s
  | n + 1 =>
    (handleSignup de ip (τ n) wh f (runStoreT de ip τ wh f s n)).store

/-- The response of the `(n+1)`-th sequential call (0-based index `n`). -/
def respAtT (de : Option String) (ip : String) (τ : Nat → Int) (wh : Bool)
    (f : Faults) (s : Store) (n : Nat) : Resp :=
  (handleSignup de ip (τ n) wh f (runStoreT de ip τ wh f s n)).resp

/-- All four KV operations of a request succeed. -/
def storeOk (f : Faults) : Prop :=
  f.rateGet = false ∧ f.ratePut = false ∧ f.emailGet = false ∧ f.emailPut = false

/-- The shape condition the specification's words assign to `isValidEmail`
(claim C3, spec section 4.1), stated literally: the candidate splits as
`local-part@domain` (a unique `'@'`), has no whitespace, at least one
character on each side of the `'@'`, and a domain containing at least one
`'.'`. -/
def specEmailShape (s : String) : Prop :=
  ∃ l d : List Char, s.data = l ++ '@' :: d ∧ l ≠ [] ∧ d ≠ [] ∧
    '@' ∉ l ∧ '@' ∉ d ∧ (∀ c ∈ s.data, jsWs c = false) ∧ '.' ∈ d

/-- The shape `isValidEmail` actually accepts: after trimming, the candidate
splits as `local@domain` where the local part is nonempty, no character is
`'@'` or whitespace apart from the separator, and the domain contains a `'.'`
that is neither its first nor its last character. -/
def emailShapeAmended (s : String) : Prop :=
  ∃ l x y : List Char,
    (jsTrim s).data = l ++ '@' :: (x ++ '.' :: y) ∧
    l ≠ [] ∧ x ≠ [] ∧ y ≠ [] ∧
    (∀ c ∈ l, atomChar c = true) ∧ (∀ c ∈ x ++ '.' :: y, atomChar c = true)

theorem lowerChar_fix (c : Char) :
    lowerChar (lowerChar c) = lowerChar c ∧ jsWs (lowerChar c) = jsWs c := by
  by_cases h1 : c = 'A'
  · subst h1; exact ⟨by decide, by decide⟩
  by_cases h2 : c = 'B'
  · subst h2; exact ⟨by decide, by decide⟩
  by_cases h3 : c = 'C'
  · subst h3; exact ⟨by decide, by decide⟩
  by_cases h4 : c = 'D'
  · subst h4; exact ⟨by decide, by decide⟩
  by_cases h5 : c = 'E'
  · subst h5; exact ⟨by decide, by decide⟩
  by_cases h6 : c = 'F'
  · subst h6; exact ⟨by decide, by decide⟩
  by_cases h7 : c = 'G'
  · subst h7; exact ⟨by decide, by decide⟩
  by_cases h8 : c = 'H'
  · subst h8; exact ⟨by decide, by decide⟩
  by_cases h9 : c = 'I'
  · subst h9; exact ⟨by decide, by decide⟩
  by_cases h10 : c = 'J'
  · subst h10; exact ⟨by decide, by decide⟩
  by_cases h11 : c = 'K'
  · subst h11; exact ⟨by decide, by decide⟩
  by_cases h12 : c = 'L'
  · subst h12; exact ⟨by decide, by decide⟩
  by_cases h13 : c = 'M'
  · subst h13; exact ⟨by decide, by decide⟩
  by_cases h14 : c = 'N'
  · subst h14; exact ⟨by decide, by decide⟩
  by_cases h15 : c = 'O'
  · subst h15; exact ⟨by decide, by decide⟩
  by_cases h16 : c = 'P'
  · subst h16; exact ⟨by decide, by decide⟩
  by_cases h17 : c = 'Q'
  · subst h17; exact ⟨by decide, by decide⟩
  by_cases h18 : c = 'R'
  · subst h18; exact ⟨by decide, by decide⟩
  by_cases h19 : c = 'S'
  · subst h19; exact ⟨by decide, by decide⟩
  by_cases h20 : c = 'T'
  · subst h20; exact ⟨by decide, by decide⟩
  by_cases h21 : c = 'U'
  · subst h21; exact ⟨by decide, by decide⟩
  by_cases h22 : c = 'V'
  · subst h22; exact ⟨by decide, by decide⟩
  by_cases h23 : c = 'W'
  · subst h23; exact ⟨by decide, by decide⟩
  by_cases h24 : c = 'X'
  · subst h24; exact ⟨by decide, by decide⟩
  by_cases h25 : c = 'Y'
  · subst h25; exact ⟨by decide, by decide⟩
  by_cases h26 : c = 'Z'
  · subst h26; exact ⟨by decide, by decide⟩
  have hfix : lowerChar c = c := by simp [lowerChar, h1, h2, h3, h4, h5, h6, h7, h8, h9, h10, h11, h12, h13, h14, h15, h16, h17, h18, h19, h20, h21, h22, h23, h24, h25, h26]
  rw [hfix]
  exact ⟨hfix, rfl⟩

/-- Projection of `lowerChar_fix`: ASCII lowering is idempotent. -/
theorem lowerChar_lowerChar (c : Char) : lowerChar (lowerChar c) = lowerChar c :=
  (lowerChar_fix c).1

/-- Projection of `lowerChar_fix`: lowering does not change whitespace-ness. -/
theorem jsWs_lowerChar (c : Char) : jsWs (lowerChar c) = jsWs c :=
  (lowerChar_fix c).2

theorem trimEnd_cons (a : Char) (rest : List Char) :
    trimEnd (a :: rest) = match trimEnd rest with
      | [] => if jsWs a then [] else [a]
      | b :: r => a :: b :: r := rfl

theorem head_dropWhile {α : Type} (p : α → Bool) (l : List α) (a : α) (t : List α)
    (h : l.dropWhile p = a :: t) : p a = false := by
  induction l with
  | nil => simp at h
  | cons c rest ih =>
    by_cases hc : p c
    · rw [List.dropWhile_cons_of_pos hc] at h; exact ih h
    · rw [List.dropWhile_cons_of_neg hc] at h
      cases h
      exact Bool.eq_false_iff.mpr hc

theorem trimEnd_nil : trimEnd ([] : List Char) = [] := rfl

theorem trimEnd_idem (l : List Char) : trimEnd (trimEnd l) = trimEnd l := by
  induction l with
  | nil => rfl
  | cons a rest ih =>
    cases h : trimEnd rest with
    | nil =>
      by_cases ha : jsWs a
      · simp only [trimEnd_cons, h, if_pos ha, trimEnd_nil]
      · simp only [trimEnd_cons, h, if_neg ha, trimEnd_nil, if_neg ha]
    | cons b r =>
      rw [h] at ih
      simp only [trimEnd_cons, h, ih]

theorem trimEnd_cons_shape (a : Char) (rest : List Char) (ha : jsWs a = false) :
    trimEnd (a :: rest) = [] ∨ ∃ t, trimEnd (a :: rest) = a :: t := by
  cases h : trimEnd rest with
  | nil =>
    right
    exact ⟨[], by rw [trimEnd_cons, h]; exact if_neg (by simp [ha])⟩
  | cons b r => right; exact ⟨b :: r, by rw [trimEnd_cons, h]⟩

theorem trimList_idem (l : List Char) : trimList (trimList l) = trimList l := by
  unfold trimList trimStart
  have hdw : ((trimEnd (l.dropWhile jsWs)).dropWhile jsWs) = trimEnd (l.dropWhile jsWs) := by
    cases hD : l.dropWhile jsWs with
    | nil => rfl
    | cons a rest =>
      have ha : jsWs a = false := head_dropWhile jsWs l a rest hD
      rcases trimEnd_cons_shape a rest ha with h | ⟨t, h⟩
      · simp [h]
      · rw [h, List.dropWhile_cons_of_neg (by simp [ha])]
  rw [hdw, trimEnd_idem]

theorem dropWhile_map_pres (f : Char → Char) (hpres : ∀ c, jsWs (f c) = jsWs c)
    (l : List Char) : (l.map f).dropWhile jsWs = (l.dropWhile jsWs).map f := by
  induction l with
  | nil => rfl
  | cons a rest ih =>
    by_cases h : jsWs a
    · simp [List.dropWhile_cons, hpres, h, ih]
    · simp [List.dropWhile_cons, hpres, h]

theorem trimEnd_map_pres (f : Char → Char) (hpres : ∀ c, jsWs (f c) = jsWs c)
    (l : List Char) : trimEnd (l.map f) = (trimEnd l).map f := by
  induction l with
  | nil => rfl
  | cons a rest ih =>
    cases h : trimEnd rest with
    | nil =>
      rw [h, List.map_nil] at ih
      by_cases ha : jsWs a
      · simp only [List.map_cons, trimEnd_cons, ih, h,
          if_pos (show jsWs (f a) = true by rw [hpres]; exact ha), if_pos ha,
          List.map_nil]
      · simp only [List.map_cons, trimEnd_cons, ih, h,
          if_neg (show ¬jsWs (f a) = true by rw [hpres]; exact ha), if_neg ha,
          List.map_cons, List.map_nil]
    | cons b r =>
      rw [h] at ih
      simp only [List.map_cons, trimEnd_cons, ih, h, List.map_cons]

theorem trimList_map_pres (f : Char → Char) (hpres : ∀ c, jsWs (f c) = jsWs c)
    (l : List Char) : trimList (l.map f) = (trimList l).map f := by
  unfold trimList trimStart
  rw [dropWhile_map_pres f hpres, trimEnd_map_pres f hpres]

/-- Claim-level fact: the normalization `trim` + `toLowerCase` is idempotent. -/
theorem normEmail_idem (s : String) : normEmail (normEmail s) = normEmail s := by
  show String.mk ((trimList ((trimList s.data).map lowerChar)).map lowerChar)
      = String.mk ((trimList s.data).map lowerChar)
  rw [trimList_map_pres lowerChar jsWs_lowerChar, trimList_idem, List.map_map]
  exact congrArg String.mk (List.map_congr_left fun c _ => lowerChar_lowerChar c)

theorem rateKey_ne_emailKey (ip e : String) : rateKeyOf ip ≠ emailKeyOf e := by
  intro h
  have h2 : (rateKeyOf ip).data = (emailKeyOf e).data := by rw [h]
  simp only [rateKeyOf, emailKeyOf, String.data_append] at h2
  have h3 : 'r' = 'e' := by
    have h4 := congrArg (fun l => l.head?) h2
    simp only [List.head?] at h4
    exact Option.some.inj h4
  exact absurd h3 (by decide)

theorem emailKeyOf_inj {a b : String} (h : emailKeyOf a = emailKeyOf b) : a = b := by
  have h2 : (emailKeyOf a).data = (emailKeyOf b).data := by rw [h]
  simp only [emailKeyOf, String.data_append] at h2
  exact String.ext (List.append_cancel_left h2)

theorem hasDotNotLast_iff : ∀ m : List Char,
    hasDotNotLast m = true ↔ ∃ x y, m = x ++ '.' :: y ∧ y ≠ []
  | [] => by
    simp [hasDotNotLast]
  | [c] => by
    constructor
    · intro h; exact absurd h (by simp [hasDotNotLast])
    · rintro ⟨x, y, hxy, hy⟩
      cases x with
      | nil =>
        rw [List.nil_append] at hxy
        injection hxy with h1 h2
        exact absurd h2.symm hy
      | cons a x' =>
        rw [List.cons_append] at hxy
        injection hxy with h1 h2
        exact absurd h2.symm (by simp)
  | c :: d :: rest => by
    have hrec := hasDotNotLast_iff (d :: rest)
    show (decide (c = '.') || hasDotNotLast (d :: rest)) = true ↔ _
    rw [Bool.or_eq_true, decide_eq_true_eq]
    constructor
    · rintro (hc | h)
      · exact ⟨[], d :: rest, by rw [hc]; rfl, by simp⟩
      · obtain ⟨x, y, h1, h2⟩ := hrec.mp h
        exact ⟨c :: x, y, by rw [List.cons_append, h1], h2⟩
    · rintro ⟨x, y, hxy, hy⟩
      cases x with
      | nil =>
        rw [List.nil_append] at hxy
        injection hxy with h1 h2
        exact Or.inl h1
      | cons a x' =>
        rw [List.cons_append] at hxy
        injection hxy with h1 h2
        exact Or.inr (hrec.mpr ⟨x', y, h2, hy⟩)

theorem tailDot_iff (d : List Char) :
    tailDot d = true ↔ ∃ x y, d = x ++ '.' :: y ∧ x ≠ [] ∧ y ≠ [] := by
  cases d with
  | nil =>
    constructor
    · intro h; exact absurd h (by simp [tailDot])
    · rintro ⟨x, y, hxy, hx, hy⟩
      exact absurd hxy.symm (by simp)
  | cons e rest =>
    show hasDotNotLast rest = true ↔ _
    rw [hasDotNotLast_iff]
    constructor
    · rintro ⟨x, y, h1, h2⟩
      exact ⟨e :: x, y, by rw [List.cons_append, h1], by simp, h2⟩
    · rintro ⟨x, y, hxy, hx, hy⟩
      cases x with
      | nil => exact absurd rfl hx
      | cons a x' =>
        rw [List.cons_append] at hxy
        injection hxy with h1 h2
        exact ⟨x', y, h2, hy⟩

/-- The regex `/^[^@\s]+@[^@\s]+\.[^@\s]+$/` accepts exactly the lists of the
shape `local ++ '@' :: (x ++ '.' :: y)` with `local`, `x`, `y` nonempty and
every character outside the separators matching `[^@\s]`. -/
theorem regexTest_iff (cs : List Char) :
    regexTest cs = true ↔
      ∃ l x y : List Char,
        cs = l ++ '@' :: (x ++ '.' :: y) ∧ l ≠ [] ∧ x ≠ [] ∧ y ≠ [] ∧
        (∀ c ∈ l, atomChar c = true) ∧ (∀ c ∈ x ++ '.' :: y, atomChar c = true) := by
  constructor
  · intro h
    unfold regexTest at h
    cases hd : cs.dropWhile atomChar with
    | nil => rw [hd] at h; exact absurd h (by simp)
    | cons a d =>
      rw [hd] at h
      simp only [Bool.and_eq_true, decide_eq_true_eq, Bool.not_eq_true',
        List.all_eq_true] at h
      obtain ⟨⟨⟨ha, hl⟩, hall⟩, htd⟩ := h
      subst ha
      obtain ⟨x, y, hxy, hx, hy⟩ := (tailDot_iff d).mp htd
      refine ⟨cs.takeWhile atomChar, x, y, ?_, ?_, hx, hy, ?_, ?_⟩
      · rw [← hxy, ← hd, List.takeWhile_append_dropWhile]
      · intro hnil
        rw [hnil] at hl
        simp at hl
      · intro c hc; exact List.mem_takeWhile_imp hc
      · rw [← hxy]; exact hall
  · rintro ⟨l, x, y, rfl, hl, hx, hy, hlatom, hdatom⟩
    unfold regexTest
    have hat : atomChar '@' = false := by decide
    have h1 : (l ++ '@' :: (x ++ '.' :: y)).dropWhile atomChar = '@' :: (x ++ '.' :: y) := by
      rw [List.dropWhile_append_of_pos hlatom, List.dropWhile_cons_of_neg (by simp [hat])]
    have h2 : (l ++ '@' :: (x ++ '.' :: y)).takeWhile atomChar = l := by
      rw [List.takeWhile_append_of_pos hlatom, List.takeWhile_cons_of_neg (by simp [hat]),
        List.append_nil]
    rw [h1]
    show (decide ('@' = '@') && !((l ++ '@' :: (x ++ '.' :: y)).takeWhile atomChar).isEmpty
        && (x ++ '.' :: y).all atomChar && tailDot (x ++ '.' :: y)) = true
    rw [h2]
    simp only [Bool.and_eq_true, decide_eq_true_eq, Bool.not_eq_true',
      List.all_eq_true]
    refine ⟨⟨⟨trivial, ?_⟩, hdatom⟩, (tailDot_iff _).mpr ⟨x, y, rfl, hx, hy⟩⟩
    cases l with
    | nil => exact absurd rfl hl
    | cons _ _ => rfl

/-- `isValidEmail` on strings, characterized structurally. -/
theorem isValidEmail_some_iff (s : String) :
    isValidEmail (some s) = true ↔ emailShapeAmended s := by
  show regexTest (jsTrim s).data = true ↔ _
  exact regexTest_iff ((jsTrim s).data)

theorem Store.put_self (s : Store) (k : String) (v : JObj) : Store.put s k v k = some v := by
  simp [Store.put]

theorem Store.put_other (s : Store) (k : String) (v : JObj) (k' : String) (h : k' ≠ k) :
    Store.put s k v k' = s k' := by
  simp [Store.put, h]

/-- If the admission check fails, `handleSignup` returns the 429
`rate_limited` response and performs no store write at all. -/
theorem handle_reject (de : Option String) (ip : String) (now : Int) (wh : Bool)
    (f : Faults) (s : Store)
    (hfg : f.rateGet = false)
    (hv : isValidEmail (some (normEmail (de.getD ""))) = true)
    (hfull : jnum (effBucket now (s (rateKeyOf ip))).count ≥ maxPerWindow) :
    handleSignup de ip now wh f s = ⟨⟨429, .rateLimited⟩, s, false⟩ := by
  simp only [handleSignup, hv, if_true, hfg, Bool.false_eq_true, if_false]
  rw [if_pos hfull]

theorem rateWrite_email (s : Store) (f : Faults) (ip : String) (v : JObj) (e : String) :
    (if f.ratePut = true then s else Store.put s (rateKeyOf ip) v) (emailKeyOf e)
      = s (emailKeyOf e) := by
  by_cases hrp : f.ratePut = true
  · rw [if_pos hrp]
  · rw [if_neg hrp, Store.put_other _ _ _ _ (Ne.symm (rateKey_ne_emailKey ip e))]

theorem emailWrite_rate (s1 : Store) (f : Faults) (e : String) (v : JObj) (ip : String) :
    (if f.emailPut = true then s1 else Store.put s1 (emailKeyOf e) v) (rateKeyOf ip)
      = s1 (rateKeyOf ip) := by
  by_cases hep : f.emailPut = true
  · rw [if_pos hep]
  · rw [if_neg hep, Store.put_other _ _ _ _ (rateKey_ne_emailKey ip e)]

/-- If a signup record exists for `e` and the dedupe read is not failing,
one `handleSignup` call never changes the entry at `email:e`
(first writer wins; no update in place). -/
theorem email_preserved (de : Option String) (ip : String) (now : Int) (wh : Bool)
    (f : Faults) (s : Store) (e : String) (r : JObj)
    (hf : f.emailGet = false) (hr : s (emailKeyOf e) = some r) :
    (handleSignup de ip now wh f s).store (emailKeyOf e) = some r := by
  simp only [handleSignup, hf, Bool.false_eq_true, if_false]
  by_cases hv : isValidEmail (some (normEmail (de.getD ""))) = true
  · rw [if_pos hv]
    generalize (if f.rateGet = true then none else s (rateKeyOf ip)) = b0
    split
    · exact hr
    · split
      · rename_i v heq
        dsimp only
        rw [rateWrite_email]
        exact hr
      · rename_i heq
        dsimp only
        by_cases he : emailKeyOf e = emailKeyOf (normEmail (de.getD ""))
        · rw [rateWrite_email, ← he, hr] at heq
          exact absurd heq (by simp)
        · by_cases hep : f.emailPut = true
          · rw [if_pos hep, rateWrite_email]
            exact hr
          · rw [if_neg hep, Store.put_other _ _ _ _ he, rateWrite_email]
            exact hr
  · rw [if_neg hv]
    exact hr

/-- One admitted `handleSignup` call with working KV (webhook fault
arbitrary): the response is 200 and not `rate_limited`, the effective bucket
is written back with its count incremented, and the dedupe step returns
`already_signed_up` (store untouched at the email key) or `registered`
(record `{email, ts: now}` written) according to the email key's state. -/
theorem handle_step (de : Option String) (ip : String) (now : Int) (wh : Bool)
    (f : Faults) (s : Store)
    (hok : storeOk f)
    (hv : isValidEmail (some (normEmail (de.getD ""))) = true)
    (hc : jnum (effBucket now (s (rateKeyOf ip))).count < maxPerWindow) :
    (handleSignup de ip now wh f s).resp.status = 200 ∧
    (handleSignup de ip now wh f s).resp.body ≠ RBody.rateLimited ∧
    (handleSignup de ip now wh f s).store (rateKeyOf ip)
      = some ⟨(effBucket now (s (rateKeyOf ip))).ts,
              some (jnum (effBucket now (s (rateKeyOf ip))).count + 1),
              (effBucket now (s (rateKeyOf ip))).email⟩ ∧
    (∀ r, s (emailKeyOf (normEmail (de.getD ""))) = some r →
      (handleSignup de ip now wh f s).resp.body = RBody.alreadySignedUp ∧
      (handleSignup de ip now wh f s).store (emailKeyOf (normEmail (de.getD ""))) = some r) ∧
    (s (emailKeyOf (normEmail (de.getD ""))) = none →
      (handleSignup de ip now wh f s).resp.body = RBody.registered ∧
      (handleSignup de ip now wh f s).store (emailKeyOf (normEmail (de.getD "")))
        = some ⟨some now, none, some (normEmail (de.getD ""))⟩) := by
  obtain ⟨h1, h2, h3, h4⟩ := hok
  simp only [handleSignup, h1, h2, h3, h4, Bool.false_eq_true, if_false, if_pos hv]
  rw [if_neg (not_le.mpr hc)]
  rw [Store.put_other _ _ _ _ (Ne.symm (rateKey_ne_emailKey ip (normEmail (de.getD ""))))]
  cases hse : s (emailKeyOf (normEmail (de.getD ""))) with
  | some r0 =>
    dsimp only
    refine ⟨rfl, by simp, ?_, ?_, ?_⟩
    · rw [Store.put_self]
    · intro r hr
      injection hr with hr0
      refine ⟨rfl, ?_⟩
      rw [Store.put_other _ _ _ _ (Ne.symm (rateKey_ne_emailKey ip (normEmail (de.getD "")))),
        hse, hr0]
    · intro hnone
      exact absurd hnone (by simp)
  | none =>
    dsimp only
    refine ⟨rfl, by simp, ?_, ?_, ?_⟩
    · rw [Store.put_other _ _ _ _ (rateKey_ne_emailKey ip (normEmail (de.getD ""))),
        Store.put_self]
    · intro r hr
      exact absurd hr (by simp)
    · intro _
      refine ⟨rfl, ?_⟩
      rw [Store.put_self]

theorem effBucket_none (now : Int) : effBucket now none = freshB now := by
  simp only [effBucket, Option.getD_none]
  rw [if_neg]
  simp only [freshB, jnum, Option.getD_some, windowMs]
  omega

theorem effBucket_within (now t0 c : Int) (em : Option String)
    (h : ¬ now - t0 > windowMs) :
    effBucket now (some ⟨some t0, some c, em⟩) = ⟨some t0, some c, em⟩ := by
  simp only [effBucket, Option.getD_some]
  rw [if_neg]
  simpa only [jnum, Option.getD_some] using h

theorem effBucket_expired (now : Int) (o : JObj) (h : now - jnum o.ts > windowMs) :
    effBucket now (some o) = freshB now := by
  simp only [effBucket, Option.getD_some]
  rw [if_pos h]

theorem storeOk_noFaults : storeOk noFaults := ⟨rfl, rfl, rfl, rfl⟩

/-- Rate-bucket evolution over sequential same-identity calls that all stay
in the window opened by the first call: after `k ≤ 10` admitted calls the
bucket is `{ts: τ 0, count: k}`. -/
theorem runT_rate (de : Option String) (ip : String) (τ : Nat → Int) (wh : Bool) (s : Store)
    (hv : isValidEmail (some (normEmail (de.getD ""))) = true)
    (h0 : s (rateKeyOf ip) = none)
    (hτ : ∀ k, k ≤ 10 → ¬ (τ k - τ 0 > windowMs)) :
    ∀ k, k ≤ 10 →
      (runStoreT de ip τ wh noFaults s k) (rateKeyOf ip)
        = if k = 0 then none else some ⟨some (τ 0), some (k : Int), none⟩ := by
  intro k
  induction k with
  | zero => intro _; simpa [runStoreT] using h0
  | succ n ih =>
    intro hn
    have hn' : n ≤ 10 := Nat.le_of_succ_le hn
    have hbucket := ih hn'
    rw [runStoreT]
    by_cases h0n : n = 0
    · subst h0n
      rw [if_pos rfl] at hbucket
      have hc : jnum (effBucket (τ 0)
          ((runStoreT de ip τ wh noFaults s 0) (rateKeyOf ip))).count < maxPerWindow := by
        rw [hbucket, effBucket_none]
        simp [freshB, jnum, maxPerWindow]
      obtain ⟨-, -, h3, -, -⟩ :=
        handle_step de ip (τ 0) wh noFaults (runStoreT de ip τ wh noFaults s 0)
          storeOk_noFaults hv hc
      rw [h3, hbucket, effBucket_none]
      simp [freshB, jnum]
    · rw [if_neg h0n] at hbucket
      have hwin : ¬ (τ n - τ 0 > windowMs) := hτ n hn'
      have hcmax : (n : Int) < maxPerWindow := by
        have h10 : n < 10 := Nat.lt_of_succ_le hn
        simp only [maxPerWindow]
        exact_mod_cast h10
      have hc : jnum (effBucket (τ n)
          ((runStoreT de ip τ wh noFaults s n) (rateKeyOf ip))).count < maxPerWindow := by
        rw [hbucket, effBucket_within (τ n) (τ 0) (n : Int) none hwin]
        simpa [jnum] using hcmax
      obtain ⟨-, -, h3, -, -⟩ :=
        handle_step de ip (τ n) wh noFaults (runStoreT de ip τ wh noFaults s n)
          storeOk_noFaults hv hc
      rw [h3, hbucket, effBucket_within (τ n) (τ 0) (n : Int) none hwin]
      rw [if_neg (Nat.succ_ne_zero n)]
      simp only [jnum, Option.getD_some]
      norm_num

/-- The signup record of `e` survives any number of sequential calls. -/
theorem runT_email (de : Option String) (ip : String) (τ : Nat → Int) (wh : Bool)
    (f : Faults) (s : Store) (e : String) (r : JObj)
    (hf : f.emailGet = false) (h : s (emailKeyOf e) = some r) :
    ∀ k, (runStoreT de ip τ wh f s k) (emailKeyOf e) = some r := by
  intro k
  induction k with
  | zero => exact h
  | succ n ih =>
    rw [runStoreT]
    exact email_preserved de ip (τ n) wh f _ e r hf ih

/-- Any admitted request (arbitrary fault flags) produces a 200 response
whose body is `registered` or `already_signed_up`: `ok` is true, it is not
`rate_limited` and not a server error. -/
theorem handle_admit_resp (de : Option String) (ip : String) (now : Int) (wh : Bool)
    (f : Faults) (s : Store)
    (hv : isValidEmail (some (normEmail (de.getD ""))) = true)
    (hc : jnum (effBucket now
        (if f.rateGet = true then none else s (rateKeyOf ip))).count < maxPerWindow) :
    (handleSignup de ip now wh f s).resp.status = 200 ∧
    okField (handleSignup de ip now wh f s).resp.body = true ∧
    (∀ d, (handleSignup de ip now wh f s).resp.body ≠ RBody.serverError d) ∧
    (handleSignup de ip now wh f s).resp.body ≠ RBody.rateLimited := by
  simp only [handleSignup, if_pos hv]
  rw [if_neg (not_le.mpr hc)]
  split
  · exact ⟨rfl, rfl, by simp, by simp⟩
  · exact ⟨rfl, rfl, by simp, by simp⟩

/-- Any admitted request whose rate-bucket write is not failing records the
incremented effective bucket under `rate:ip`. -/
theorem handle_rate_store (de : Option String) (ip : String) (now : Int) (wh : Bool)
    (f : Faults) (s : Store)
    (hv : isValidEmail (some (normEmail (de.getD ""))) = true)
    (hrp : f.ratePut = false)
    (hc : jnum (effBucket now
        (if f.rateGet = true then none else s (rateKeyOf ip))).count < maxPerWindow) :
    (handleSignup de ip now wh f s).store (rateKeyOf ip)
      = some ⟨(effBucket now (if f.rateGet = true then none else s (rateKeyOf ip))).ts,
              some (jnum (effBucket now
                (if f.rateGet = true then none else s (rateKeyOf ip))).count + 1),
              (effBucket now (if f.rateGet = true then none else s (rateKeyOf ip))).email⟩ := by
  simp only [handleSignup, if_pos hv, hrp, Bool.false_eq_true, if_false]
  rw [if_neg (not_le.mpr hc)]
  split
  · dsimp only
    rw [Store.put_self]
  · dsimp only
    by_cases hep : f.emailPut = true
    · rw [if_pos hep, Store.put_self]
    · rw [if_neg hep,
        Store.put_other _ _ _ _ (rateKey_ne_emailKey ip (normEmail (de.getD ""))),
        Store.put_self]

/-- Any admitted request whose rate-bucket write fails leaves the rate key
untouched (failing to record is not fatal and nothing is persisted). -/
theorem handle_rate_store_skip (de : Option String) (ip : String) (now : Int) (wh : Bool)
    (f : Faults) (s : Store)
    (hv : isValidEmail (some (normEmail (de.getD ""))) = true)
    (hrp : f.ratePut = true)
    (hc : jnum (effBucket now
        (if f.rateGet = true then none else s (rateKeyOf ip))).count < maxPerWindow) :
    (handleSignup de ip now wh f s).store (rateKeyOf ip) = s (rateKeyOf ip) := by
  simp only [handleSignup, if_pos hv, hrp, if_true]
  rw [if_neg (not_le.mpr hc)]
  split
  · rfl
  · dsimp only
    by_cases hep : f.emailPut = true
    · rw [if_pos hep]
    · rw [if_neg hep,
        Store.put_other _ _ _ _ (rateKey_ne_emailKey ip (normEmail (de.getD "")))]

/-- C3 (counterexample): the claimed equivalence fails at the concrete input
`"a@b."`: it has the shape `local-part@domain` with no whitespace, at least
one character on each side of the `'@'`, and a domain containing a `'.'`,
yet `isValidEmail` returns `false` on it. -/
theorem c3_shape_cex :
    ¬ (isValidEmail (some "a@b.") = true ↔ specEmailShape "a@b.") := by
  intro h
  have hshape : specEmailShape "a@b." :=
    ⟨['a'], ['b', '.'], rfl, by simp, by simp, by decide, by decide, by decide,
      by decide⟩
  have hfalse : isValidEmail (some "a@b.") = false := by decide
  rw [h.mpr hshape] at hfalse
  exact absurd hfalse (by simp)

/-- C3 (amended): `isValidEmail` returns false on every non-string input,
and returns true on a string iff, after trimming, it has the shape
`local-part@domain` with nonempty local part, no `'@'` or whitespace outside
the separator, and a domain containing a `'.'` that has at least one
character before it and after it within the domain. -/
theorem c3_valid_email_amended :
    isValidEmail none = false ∧
    ∀ s : String, isValidEmail (some s) = true ↔ emailShapeAmended s :=
  ⟨rfl, isValidEmail_some_iff⟩

/-- C8: email normalization (trim then lower-case) is idempotent, and the
raw inputs `" USER@Example.COM "` and `"user@example.com"` normalize to the
same value and resolve to the identical record key
`email:user@example.com`. -/
theorem c8_normalization :
    (∀ s : String, normEmail (normEmail s) = normEmail s) ∧
    normEmail " USER@Example.COM " = "user@example.com" ∧
    normEmail "user@example.com" = "user@example.com" ∧
    emailKeyOf (normEmail " USER@Example.COM ") = "email:user@example.com" ∧
    emailKeyOf (normEmail "user@example.com") = "email:user@example.com" :=
  ⟨normEmail_idem, by decide, by decide, by decide, by decide⟩

/-- C6: when the admission check fails (effective in-window count at or
above the maximum), the handler returns exactly the 429 `rate_limited`
response and the store is returned unchanged: the count is not incremented
and nothing is written for that request. -/
theorem c6_reject_atomic (de : Option String) (ip : String) (now : Int) (wh : Bool)
    (f : Faults) (s : Store)
    (hfg : f.rateGet = false)
    (hv : isValidEmail (some (normEmail (de.getD ""))) = true)
    (hfull : jnum (effBucket now (s (rateKeyOf ip))).count ≥ maxPerWindow) :
    handleSignup de ip now wh f s = ⟨⟨429, RBody.rateLimited⟩, s, false⟩ :=
  handle_reject de ip now wh f s hfg hv hfull

/-- C6 witness: a store holding a full in-window bucket at time 0 makes the
handler answer 429 `rate_limited`. -/
theorem c6_reject_atomic_w :
    jnum (effBucket 0 ((fun _ => some (⟨some 0, some 10, none⟩ : JObj) : Store)
        (rateKeyOf "9.9.9.9"))).count ≥ maxPerWindow ∧
    (handleSignup (some "a@b.c") "9.9.9.9" 0 false noFaults
        (fun _ => some ⟨some 0, some 10, none⟩)).resp = ⟨429, RBody.rateLimited⟩ :=
  ⟨by decide,
    congrArg HOut.resp
      (c6_reject_atomic (some "a@b.c") "9.9.9.9" 0 false noFaults
        (fun _ => some ⟨some 0, some 10, none⟩) rfl (by decide) (by decide))⟩

/-- C5: once `now - windowStart` exceeds `windowMs`, a previously exhausted
identity is admitted again: the bucket is treated as
`{windowStart: now, count: 0}` before the admission check, the response is
200 and not `rate_limited`, and the persisted bucket is
`{ts: now, count: 1}`. -/
theorem c5_window_reset (de : Option String) (ip : String) (now : Int) (wh : Bool)
    (s : Store) (o : JObj)
    (hv : isValidEmail (some (normEmail (de.getD ""))) = true)
    (hb : s (rateKeyOf ip) = some o)
    (hexp : now - jnum o.ts > windowMs) :
    effBucket now (s (rateKeyOf ip)) = freshB now ∧
    (handleSignup de ip now wh noFaults s).resp.status = 200 ∧
    (handleSignup de ip now wh noFaults s).resp.body ≠ RBody.rateLimited ∧
    (handleSignup de ip now wh noFaults s).store (rateKeyOf ip)
      = some ⟨some now, some 1, none⟩ := by
  have heff : effBucket now (s (rateKeyOf ip)) = freshB now := by
    rw [hb]; exact effBucket_expired now o hexp
  have hc : jnum (effBucket now (s (rateKeyOf ip))).count < maxPerWindow := by
    rw [heff]; simp [freshB, jnum, maxPerWindow]
  obtain ⟨ha, hbody, h3, -, -⟩ :=
    handle_step de ip now wh noFaults s storeOk_noFaults hv hc
  refine ⟨heff, ha, hbody, ?_⟩
  rw [h3, heff]
  simp [freshB, jnum]

/-- C5 witness: an exhausted bucket (count 10) whose window started at time
0 admits again at time `windowMs + 1` and is reset to `{ts: now, count: 1}`. -/
theorem c5_window_reset_w :
    ((fun _ => some (⟨some 0, some 10, none⟩ : JObj) : Store) (rateKeyOf "9.9.9.9")
        = some ⟨some 0, some 10, none⟩) ∧
    ((3600001 : Int) - jnum (some (0 : Int)) > windowMs) ∧
    (handleSignup (some "a@b.c") "9.9.9.9" 3600001 false noFaults
        (fun _ => some ⟨some 0, some 10, none⟩)).store (rateKeyOf "9.9.9.9")
      = some ⟨some 3600001, some 1, none⟩ :=
  ⟨rfl, by decide,
    (c5_window_reset (some "a@b.c") "9.9.9.9" 3600001 false
      (fun _ => some ⟨some 0, some 10, none⟩) ⟨some 0, some 10, none⟩
      (by decide) rfl (by decide)).2.2.2⟩

/-- C1: for a fresh identity (no rate bucket in the store), each of the
first 10 signup admit-checks within one window returns admitted (status 200,
not `rate_limited`), and the 11th check in the same window returns the 429
response whose body renders as `{"ok":false,"error":"rate_limited"}`. -/
theorem c1_fresh_identity_eleven_checks (de : Option String) (ip : String)
    (τ : Nat → Int) (wh : Bool) (s : Store)
    (hv : isValidEmail (some (normEmail (de.getD ""))) = true)
    (hfresh : s (rateKeyOf ip) = none)
    (hτ : ∀ k, k ≤ 10 → ¬ (τ k - τ 0 > windowMs)) :
    (∀ k, k < 10 →
      (respAtT de ip τ wh noFaults s k).status = 200 ∧
      (respAtT de ip τ wh noFaults s k).body ≠ RBody.rateLimited) ∧
    respAtT de ip τ wh noFaults s 10 = ⟨429, RBody.rateLimited⟩ ∧
    renderBody (respAtT de ip τ wh noFaults s 10).body
      = "\x7b\"ok\":false,\"error\":\"rate_limited\"\x7d" := by
  have hrate := runT_rate de ip τ wh s hv hfresh hτ
  have hquota : ∀ k, k < 10 →
      jnum (effBucket (τ k)
        ((runStoreT de ip τ wh noFaults s k) (rateKeyOf ip))).count < maxPerWindow := by
    intro k hk
    rcases Nat.eq_zero_or_pos k with h0 | hpos
    · subst h0
      rw [hrate 0 (by omega), if_pos rfl, effBucket_none]
      simp [freshB, jnum, maxPerWindow]
    · rw [hrate k (le_of_lt hk), if_neg (Nat.pos_iff_ne_zero.mp hpos),
        effBucket_within (τ k) (τ 0) (k : Int) none (hτ k (le_of_lt hk))]
      simp only [jnum, Option.getD_some, maxPerWindow]
      exact_mod_cast hk
  refine ⟨?_, ?_, ?_⟩
  · intro k hk
    obtain ⟨h200, hnrl, -, -, -⟩ :=
      handle_step de ip (τ k) wh noFaults (runStoreT de ip τ wh noFaults s k)
        storeOk_noFaults hv (hquota k hk)
    exact ⟨h200, hnrl⟩
  · have hfull : jnum (effBucket (τ 10)
        ((runStoreT de ip τ wh noFaults s 10) (rateKeyOf ip))).count ≥ maxPerWindow := by
      rw [hrate 10 le_rfl, if_neg (by decide),
        effBucket_within (τ 10) (τ 0) ((10 : Nat) : Int) none (hτ 10 le_rfl)]
      simp [jnum, maxPerWindow]
    have hrej := handle_reject de ip (τ 10) wh noFaults
      (runStoreT de ip τ wh noFaults s 10) rfl hv hfull
    show (handleSignup de ip (τ 10) wh noFaults (runStoreT de ip τ wh noFaults s 10)).resp = _
    rw [hrej]
  · have hfull : jnum (effBucket (τ 10)
        ((runStoreT de ip τ wh noFaults s 10) (rateKeyOf ip))).count ≥ maxPerWindow := by
      rw [hrate 10 le_rfl, if_neg (by decide),
        effBucket_within (τ 10) (τ 0) ((10 : Nat) : Int) none (hτ 10 le_rfl)]
      simp [jnum, maxPerWindow]
    have hrej := handle_reject de ip (τ 10) wh noFaults
      (runStoreT de ip τ wh noFaults s 10) rfl hv hfull
    show renderBody (handleSignup de ip (τ 10) wh noFaults
      (runStoreT de ip τ wh noFaults s 10)).resp.body = _
    rw [hrej]
    rfl

/-- C1 witness: 11 calls from the fresh identity `203.0.113.7`, all at time
0, on the empty store: the 11th response is exactly the 429 `rate_limited`
one. -/
theorem c1_fresh_identity_eleven_checks_w :
    (emptyStore (rateKeyOf "203.0.113.7") = none) ∧
    isValidEmail (some (normEmail "a@b.c")) = true ∧
    respAtT (some "a@b.c") "203.0.113.7" (fun _ => 0) false noFaults emptyStore 10
      = ⟨429, RBody.rateLimited⟩ :=
  ⟨rfl, by decide,
    (c1_fresh_identity_eleven_checks (some "a@b.c") "203.0.113.7" (fun _ => 0)
      false emptyStore (by decide) rfl
      (fun k _ => by show ¬((0 : Int) - 0 > windowMs); decide)).2.1⟩

/-- C10: duplicate submissions still consume rate-limit quota: with the
email already registered and a fresh identity, each of the first 10 calls in
one window answers 200 `already_signed_up`, and the 11th answers the 429
`rate_limited` response — the bucket is incremented before the dedupe
lookup. -/
theorem c10_duplicates_consume_quota (de : Option String) (ip : String)
    (τ : Nat → Int) (wh : Bool) (s : Store) (r : JObj)
    (hv : isValidEmail (some (normEmail (de.getD ""))) = true)
    (hfresh : s (rateKeyOf ip) = none)
    (hreg : s (emailKeyOf (normEmail (de.getD ""))) = some r)
    (hτ : ∀ k, k ≤ 10 → ¬ (τ k - τ 0 > windowMs)) :
    (∀ k, k < 10 →
      (respAtT de ip τ wh noFaults s k).status = 200 ∧
      (respAtT de ip τ wh noFaults s k).body = RBody.alreadySignedUp) ∧
    respAtT de ip τ wh noFaults s 10 = ⟨429, RBody.rateLimited⟩ := by
  have hrate := runT_rate de ip τ wh s hv hfresh hτ
  have hkeep := runT_email de ip τ wh noFaults s (normEmail (de.getD "")) r rfl hreg
  have hquota : ∀ k, k < 10 →
      jnum (effBucket (τ k)
        ((runStoreT de ip τ wh noFaults s k) (rateKeyOf ip))).count < maxPerWindow := by
    intro k hk
    rcases Nat.eq_zero_or_pos k with h0 | hpos
    · subst h0
      rw [hrate 0 (by omega), if_pos rfl, effBucket_none]
      simp [freshB, jnum, maxPerWindow]
    · rw [hrate k (le_of_lt hk), if_neg (Nat.pos_iff_ne_zero.mp hpos),
        effBucket_within (τ k) (τ 0) (k : Int) none (hτ k (le_of_lt hk))]
      simp only [jnum, Option.getD_some, maxPerWindow]
      exact_mod_cast hk
  constructor
  · intro k hk
    obtain ⟨h200, -, -, hdup, -⟩ :=
      handle_step de ip (τ k) wh noFaults (runStoreT de ip τ wh noFaults s k)
        storeOk_noFaults hv (hquota k hk)
    obtain ⟨hbody, -⟩ := hdup r (hkeep k)
    exact ⟨h200, hbody⟩
  · have hfull : jnum (effBucket (τ 10)
        ((runStoreT de ip τ wh noFaults s 10) (rateKeyOf ip))).count ≥ maxPerWindow := by
      rw [hrate 10 le_rfl, if_neg (by decide),
        effBucket_within (τ 10) (τ 0) ((10 : Nat) : Int) none (hτ 10 le_rfl)]
      simp [jnum, maxPerWindow]
    have hrej := handle_reject de ip (τ 10) wh noFaults
      (runStoreT de ip τ wh noFaults s 10) rfl hv hfull
    show (handleSignup de ip (τ 10) wh noFaults (runStoreT de ip τ wh noFaults s 10)).resp = _
    rw [hrej]

/-- C10 witness: with `email:a@b.c` already registered, 11 same-window calls
from a fresh identity end in the 429 `rate_limited` response. -/
theorem c10_duplicates_consume_quota_w :
    ((fun k => if k = emailKeyOf "a@b.c" then some (⟨some 0, none, some "a@b.c"⟩ : JObj)
        else none : Store) (rateKeyOf "203.0.113.7") = none) ∧
    respAtT (some "a@b.c") "203.0.113.7" (fun _ => 0) false noFaults
      (fun k => if k = emailKeyOf "a@b.c" then some ⟨some 0, none, some "a@b.c"⟩ else none) 10
      = ⟨429, RBody.rateLimited⟩ :=
  ⟨by decide,
    (c10_duplicates_consume_quota (some "a@b.c") "203.0.113.7" (fun _ => 0)
      false (fun k => if k = emailKeyOf "a@b.c" then some ⟨some 0, none, some "a@b.c"⟩ else none)
      ⟨some 0, none, some "a@b.c"⟩ (by decide) (by decide) (by decide)
      (fun k _ => by show ¬((0 : Int) - 0 > windowMs); decide)).2⟩

/-- C2: registering the same normalized email twice in sequence (fresh
identity, no existing record) yields `{"ok":true}` / 200 `registered` first
and `{"ok":true,"message":"already_signed_up"}` / 200 second, and the store
keeps exactly the first writer's record under the normalized-email key:
nothing overwrites or updates it. -/
theorem c2_register_twice (de1 de2 : Option String) (ip : String)
    (now1 now2 : Int) (wh : Bool) (s : Store)
    (heq : normEmail (de2.getD "") = normEmail (de1.getD ""))
    (hv : isValidEmail (some (normEmail (de1.getD ""))) = true)
    (hfresh : s (rateKeyOf ip) = none)
    (hnew : s (emailKeyOf (normEmail (de1.getD ""))) = none) :
    (handleSignup de1 ip now1 wh noFaults s).resp.status = 200 ∧
    (handleSignup de1 ip now1 wh noFaults s).resp.body = RBody.registered ∧
    renderBody (handleSignup de1 ip now1 wh noFaults s).resp.body
      = "\x7b\"ok\":true\x7d" ∧
    (handleSignup de1 ip now1 wh noFaults s).store (emailKeyOf (normEmail (de1.getD "")))
      = some ⟨some now1, none, some (normEmail (de1.getD ""))⟩ ∧
    (handleSignup de2 ip now2 wh noFaults
        (handleSignup de1 ip now1 wh noFaults s).store).resp.status = 200 ∧
    (handleSignup de2 ip now2 wh noFaults
        (handleSignup de1 ip now1 wh noFaults s).store).resp.body
      = RBody.alreadySignedUp ∧
    renderBody (handleSignup de2 ip now2 wh noFaults
        (handleSignup de1 ip now1 wh noFaults s).store).resp.body
      = "\x7b\"ok\":true,\"message\":\"already_signed_up\"\x7d" ∧
    (handleSignup de2 ip now2 wh noFaults
        (handleSignup de1 ip now1 wh noFaults s).store).store
        (emailKeyOf (normEmail (de1.getD "")))
      = some ⟨some now1, none, some (normEmail (de1.getD ""))⟩ := by
  have hc1 : jnum (effBucket now1 (s (rateKeyOf ip))).count < maxPerWindow := by
    rw [hfresh, effBucket_none]
    simp [freshB, jnum, maxPerWindow]
  obtain ⟨h200a, -, h3a, -, hrega⟩ :=
    handle_step de1 ip now1 wh noFaults s storeOk_noFaults hv hc1
  obtain ⟨hbody1, hstore1⟩ := hrega hnew
  have hrate1 : (handleSignup de1 ip now1 wh noFaults s).store (rateKeyOf ip)
      = some ⟨some now1, some 1, none⟩ := by
    rw [h3a, hfresh, effBucket_none]
    simp [freshB, jnum]
  have hv2 : isValidEmail (some (normEmail (de2.getD ""))) = true := by
    rw [heq]; exact hv
  have hc2 : jnum (effBucket now2
      ((handleSignup de1 ip now1 wh noFaults s).store (rateKeyOf ip))).count
        < maxPerWindow := by
    rw [hrate1]
    by_cases hw : now2 - now1 > windowMs
    · rw [effBucket_expired now2 _ (by simpa [jnum] using hw)]
      simp [freshB, jnum, maxPerWindow]
    · rw [effBucket_within now2 now1 1 none hw]
      simp [jnum, maxPerWindow]
  obtain ⟨h200b, -, -, hdup, -⟩ :=
    handle_step de2 ip now2 wh noFaults
      (handleSignup de1 ip now1 wh noFaults s).store storeOk_noFaults hv2 hc2
  rw [heq] at hdup
  obtain ⟨hbody2, hstore2⟩ := hdup ⟨some now1, none, some (normEmail (de1.getD ""))⟩ hstore1
  exact ⟨h200a, hbody1, by rw [hbody1]; rfl, hstore1, h200b, hbody2, by rw [hbody2]; rfl, hstore2⟩

/-- C2 witness: `"Test@Example.com"` then `"test@example.com"` on the empty
store: second response body is `already_signed_up` and the first record is
still stored unchanged. -/
theorem c2_register_twice_w :
    normEmail "test@example.com" = normEmail "Test@Example.com" ∧
    (handleSignup (some "test@example.com") "9.9.9.9" 7 false noFaults
        (handleSignup (some "Test@Example.com") "9.9.9.9" 3 false noFaults
          emptyStore).store).resp.body = RBody.alreadySignedUp ∧
    (handleSignup (some "test@example.com") "9.9.9.9" 7 false noFaults
        (handleSignup (some "Test@Example.com") "9.9.9.9" 3 false noFaults
          emptyStore).store).store (emailKeyOf (normEmail "Test@Example.com"))
      = some ⟨some 3, none, some (normEmail "Test@Example.com")⟩ := by
  have h := c2_register_twice (some "Test@Example.com") (some "test@example.com")
    "9.9.9.9" 3 7 false emptyStore (by decide) (by decide) rfl rfl
  exact ⟨by decide, h.2.2.2.2.2.1, h.2.2.2.2.2.2.2⟩

/-- C7: once a registration reaches the webhook-forwarding step
(admitted, new email, webhook configured), a webhook failure changes
nothing: the response is still 200 `registered` (`{"ok":true}`) and the
persisted record is still in the store afterward. -/
theorem c7_webhook_failure_harmless (de : Option String) (ip : String)
    (now : Int) (wf : Bool) (s : Store)
    (hv : isValidEmail (some (normEmail (de.getD ""))) = true)
    (hquota : jnum (effBucket now (s (rateKeyOf ip))).count < maxPerWindow)
    (hnew : s (emailKeyOf (normEmail (de.getD ""))) = none) :
    (handleSignup de ip now true ⟨false, false, false, false, wf⟩ s).resp.status = 200 ∧
    (handleSignup de ip now true ⟨false, false, false, false, wf⟩ s).resp.body
      = RBody.registered ∧
    renderBody (handleSignup de ip now true ⟨false, false, false, false, wf⟩ s).resp.body
      = "\x7b\"ok\":true\x7d" ∧
    (handleSignup de ip now true ⟨false, false, false, false, wf⟩ s).store
        (emailKeyOf (normEmail (de.getD "")))
      = some ⟨some now, none, some (normEmail (de.getD ""))⟩ := by
  obtain ⟨h200, -, -, -, hreg⟩ :=
    handle_step de ip now true ⟨false, false, false, false, wf⟩ s
      ⟨rfl, rfl, rfl, rfl⟩ hv hquota
  obtain ⟨hbody, hstore⟩ := hreg hnew
  exact ⟨h200, hbody, by rw [hbody]; rfl, hstore⟩

/-- C7 witness: with the webhook call failing, a fresh signup still gets
`{"ok":true}` and the record `email:a@b.c` exists afterward. -/
theorem c7_webhook_failure_harmless_w :
    jnum (effBucket 0 (emptyStore (rateKeyOf "9.9.9.9"))).count < maxPerWindow ∧
    (handleSignup (some "a@b.c") "9.9.9.9" 0 true ⟨false, false, false, false, true⟩
        emptyStore).resp.body = RBody.registered ∧
    (handleSignup (some "a@b.c") "9.9.9.9" 0 true ⟨false, false, false, false, true⟩
        emptyStore).store (emailKeyOf (normEmail "a@b.c"))
      = some ⟨some 0, none, some (normEmail "a@b.c")⟩ := by
  have h := c7_webhook_failure_harmless (some "a@b.c") "9.9.9.9" 0 true emptyStore
    (by decide) (by decide) rfl
  exact ⟨by decide, h.2.1, h.2.2.2⟩

/-- C9 (implicit store invariant): whatever one `handleSignup` call leaves
under a key `email:k` was either already there, or is exactly the record
`{email: k, ts: now}` for a `k` that is normalized (a fixed point of the
normalization) and passes `isValidEmail` — no write ever disagrees with its
key or stores an unnormalized email. -/
theorem c9_record_key_invariant (de : Option String) (ip : String) (now : Int)
    (wh : Bool) (f : Faults) (s : Store) (k : String) (v : JObj)
    (h : (handleSignup de ip now wh f s).store (emailKeyOf k) = some v) :
    s (emailKeyOf k) = some v ∨
    (v = ⟨some now, none, some k⟩ ∧ v.email = some k ∧ normEmail k = k ∧
      isValidEmail (some k) = true) := by
  revert h
  simp only [handleSignup]
  by_cases hv : isValidEmail (some (normEmail (de.getD ""))) = true
  · rw [if_pos hv]
    generalize (if f.rateGet = true then none else s (rateKeyOf ip)) = b0
    split
    · intro h; exact Or.inl h
    · split
      · intro h
        dsimp only at h
        rw [rateWrite_email] at h
        exact Or.inl h
      · rename_i hnone
        intro h
        dsimp only at h
        by_cases hep : f.emailPut = true
        · rw [if_pos hep, rateWrite_email] at h
          exact Or.inl h
        · rw [if_neg hep] at h
          by_cases hk : emailKeyOf k = emailKeyOf (normEmail (de.getD ""))
          · have hkk : k = normEmail (de.getD "") := emailKeyOf_inj hk
            subst hkk
            rw [Store.put_self] at h
            injection h with hv2
            refine Or.inr ⟨hv2.symm, ?_, normEmail_idem (de.getD ""), hv⟩
            rw [← hv2]
          · rw [Store.put_other _ _ _ _ hk, rateWrite_email] at h
            exact Or.inl h
  · rw [if_neg hv]
    intro h; exact Or.inl h

/-- C9 witness: a fresh signup writes a record whose `email` field equals
its (normalized, valid) key. -/
theorem c9_record_key_invariant_w :
    (handleSignup (some "a@b.c") "9.9.9.9" 0 false noFaults emptyStore).store
        (emailKeyOf "a@b.c") = some ⟨some 0, none, some "a@b.c"⟩ ∧
    (emptyStore (emailKeyOf "a@b.c") = some ⟨some 0, none, some "a@b.c"⟩ ∨
      ((⟨some 0, none, some "a@b.c"⟩ : JObj) = ⟨some 0, none, some "a@b.c"⟩ ∧
        (⟨some 0, none, some "a@b.c"⟩ : JObj).email = some "a@b.c" ∧
        normEmail "a@b.c" = "a@b.c" ∧ isValidEmail (some "a@b.c") = true)) :=
  ⟨by decide,
    c9_record_key_invariant (some "a@b.c") "9.9.9.9" 0 false noFaults emptyStore
      "a@b.c" ⟨some 0, none, some "a@b.c"⟩ (by decide)⟩

/-- C4: the rate limiter fails open. If the bucket read fails, the request
is treated as a fresh window (never `rate_limited`, status 200, and — when
the bucket write works — the recorded bucket is the fresh `{ts: now,
count: 1}`). If the bucket write fails, an admitted request still gets a
200 `ok` response, never a server error, and the rate key is left
untouched. -/
theorem c4_fail_open (de : Option String) (ip : String) (now : Int) (wh : Bool)
    (s s2 : Store) (pr eg ep eg2 ep2 w w2 : Bool)
    (hv : isValidEmail (some (normEmail (de.getD ""))) = true)
    (hfresh : s2 (rateKeyOf ip) = none) :
    (handleSignup de ip now wh ⟨true, pr, eg, ep, w⟩ s).resp.body ≠ RBody.rateLimited ∧
    (handleSignup de ip now wh ⟨true, pr, eg, ep, w⟩ s).resp.status = 200 ∧
    (handleSignup de ip now wh ⟨true, false, eg, ep, w⟩ s).store (rateKeyOf ip)
      = some ⟨some now, some 1, none⟩ ∧
    (handleSignup de ip now wh ⟨false, true, eg2, ep2, w2⟩ s2).resp.status = 200 ∧
    okField (handleSignup de ip now wh ⟨false, true, eg2, ep2, w2⟩ s2).resp.body = true ∧
    (∀ d, (handleSignup de ip now wh ⟨false, true, eg2, ep2, w2⟩ s2).resp.body
      ≠ RBody.serverError d) ∧
    (handleSignup de ip now wh ⟨false, true, eg2, ep2, w2⟩ s2).store (rateKeyOf ip)
      = s2 (rateKeyOf ip) := by
  have hfreshCount : ∀ b : Option JObj, b = none →
      jnum (effBucket now b).count < maxPerWindow := by
    intro b hb
    rw [hb, effBucket_none]
    simp [freshB, jnum, maxPerWindow]
  have hcA : jnum (effBucket now (if (⟨true, pr, eg, ep, w⟩ : Faults).rateGet = true
      then none else s (rateKeyOf ip))).count < maxPerWindow :=
    hfreshCount _ rfl
  have hcA2 : jnum (effBucket now (if (⟨true, false, eg, ep, w⟩ : Faults).rateGet = true
      then none else s (rateKeyOf ip))).count < maxPerWindow :=
    hfreshCount _ rfl
  have hcB : jnum (effBucket now (if (⟨false, true, eg2, ep2, w2⟩ : Faults).rateGet = true
      then none else s2 (rateKeyOf ip))).count < maxPerWindow :=
    hfreshCount _ hfresh
  obtain ⟨ha200, -, -, hanrl⟩ := handle_admit_resp de ip now wh ⟨true, pr, eg, ep, w⟩ s hv hcA
  obtain ⟨hb200, hbok, hbnse, -⟩ :=
    handle_admit_resp de ip now wh ⟨false, true, eg2, ep2, w2⟩ s2 hv hcB
  refine ⟨hanrl, ha200, ?_, hb200, hbok, hbnse, ?_⟩
  · rw [handle_rate_store de ip now wh ⟨true, false, eg, ep, w⟩ s hv rfl hcA2]
    have hred : (if (⟨true, false, eg, ep, w⟩ : Faults).rateGet = true
        then none else s (rateKeyOf ip)) = (none : Option JObj) := rfl
    rw [hred, effBucket_none]
    simp [freshB, jnum]
  · exact handle_rate_store_skip de ip now wh ⟨false, true, eg2, ep2, w2⟩ s2 hv rfl hcB

/-- C4 witness: with a failing bucket read over a store holding a full
bucket, the response is still not `rate_limited`; with a failing bucket
write over a fresh store, the response is 200 and the rate key stays
empty. -/
theorem c4_fail_open_w :
    (emptyStore (rateKeyOf "9.9.9.9") = none) ∧
    (handleSignup (some "a@b.c") "9.9.9.9" 0 false ⟨true, false, false, false, false⟩
        (fun _ => some ⟨some 0, some 10, none⟩)).resp.body ≠ RBody.rateLimited ∧
    (handleSignup (some "a@b.c") "9.9.9.9" 0 false ⟨false, true, false, false, false⟩
        emptyStore).resp.status = 200 ∧
    (handleSignup (some "a@b.c") "9.9.9.9" 0 false ⟨false, true, false, false, false⟩
        emptyStore).store (rateKeyOf "9.9.9.9") = emptyStore (rateKeyOf "9.9.9.9") := by
  have h := c4_fail_open (some "a@b.c") "9.9.9.9" 0 false
    (fun _ => some ⟨some 0, some 10, none⟩) emptyStore
    false false false false false false false (by decide) rfl
  exact ⟨rfl, h.1, h.2.2.2.1, h.2.2.2.2.2.2⟩
